import Mathlib

/-!
A shallow embedding of `src/src/Interpreters/AsynchronousInsertQueue.h`
(ClickHouse's asynchronous insert queue).  The repository snapshot contains
only the header: the data structures, `~InsertData` and `getQueueLocked` are
taken directly from the header source, while the bodies of `push`,
`processBatchDeadlines`, `processData`, `flushAll`, `Entry::finish` and the
destructor live in the missing `AsynchronousInsertQueue.cpp` and are modelled
from the specification (`spec.md`), as marked on each definition.

Machine integers are modelled as `Nat`; the 128-bit hash carries an explicit
`% 2^128`.  Timestamps (`std::chrono` time points) are `Nat` ticks.  The
`std::promise`/`std::future` pair of an entry is modelled by the entry's
`resolution` field: `none` means the promise is still pending, `some none`
means it was resolved with success, `some (some err)` means it was resolved
with the captured failure `err`.
-/

namespace AsyncInsert

/-- Failures that can be delivered through an entry's promise: a captured
storage-write failure, or the distinct shutdown-before-flush failure. -/
inductive Err where
  | writeFailure (msg : String)
  | shutdownBeforeFlush
deriving DecidableEq, Repr

/-- `InsertData::Entry` from the header: the owned byte buffer, query id,
deduplication token, the borrowed user memory tracker (modelled as an id),
the creation timestamp, plus the promise (`resolution`) and the idempotency
flag `finished` (`std::atomic_bool finished = false`). -/
structure Entry where
  bytes : String
  query_id : String
  async_dedup_token : String
  user_memory_tracker : Nat
  create_time : Nat
  finished : Bool
  resolution : Option (Option Err)
deriving DecidableEq, Repr

/-- The `Entry` constructor from the header: a fresh entry has
`finished = false` and an unresolved promise. -/
def mkEntry (bytes query_id async_dedup_token : String)
    (user_memory_tracker create_time : Nat) : Entry :=
  { bytes := bytes
    query_id := query_id
    async_dedup_token := async_dedup_token
    user_memory_tracker := user_memory_tracker
    create_time := create_time
    finished := false
    resolution := none }

/-- Modelled from the spec: the body of `InsertData::Entry::finish` is in the
missing `.cpp`.  Per the spec, the completion signal is "guarded by an
idempotency flag so `finish` may be invoked at most once, either with success
or with a captured failure": if the entry is already finished the call has no
effect, otherwise it sets the flag and resolves the promise with the given
outcome (`none` = success, `some err` = failure). -/
def Entry.finish (e : Entry) (exception : Option Err) : Entry :=
  if e.finished then e
  else { e with finished := true, resolution := some exception }

/-- `InsertQuery` from the header: statement text, a snapshot of the settings,
the optional user id and the active roles.  Settings are modelled as a list of
name/value pairs, UUIDs as `Nat`.  (The stored `hash` field is recomputed by
`InsertQuery.calculateHash` instead of being cached.) -/
structure InsertQuery where
  query_str : String
  settings : List (String × String)
  user_id : Option Nat
  current_roles : List Nat
deriving DecidableEq, Repr

/-- A simple string hash used as a component of the key hash. -/
def hashString (s : String) : Nat :=
  s.data.foldl (fun h c => h * 131 + c.toNat) 7

/-- Modelled from the spec: `InsertQuery::calculateHash` is in the missing
`.cpp`.  Per the spec it is "a 128-bit hash computed once from" the statement
text, the settings snapshot, the user id and the roles; the concrete mixing
below stands in for the real hash, reduced modulo `2^128` exactly as any
128-bit hash is. -/
def InsertQuery.calculateHash (q : InsertQuery) : Nat :=
  (hashString q.query_str
    + 31 * q.settings.foldl (fun h p => h * 131 + hashString p.1 * 31 + hashString p.2) 5
    + 101 * (match q.user_id with | none => 0 | some u => u + 1)
    + 1009 * q.current_roles.foldl (fun h r => h * 131 + r + 1) 3) % 2 ^ 128

/-- `InsertData` from the header: the ordered entry list and the running
byte total. -/
structure InsertData where
  entries : List Entry
  size_in_bytes : Nat
deriving DecidableEq, Repr

/-- The header invariant stated by the spec: `size_in_bytes` always equals
the sum of the constituent entries' byte lengths. -/
def sizeInvariant (d : InsertData) : Prop :=
  d.size_in_bytes = (d.entries.map (fun e => e.bytes.length)).sum

/-- `Container` from the header: a grouping key together with its batch. -/
structure Container where
  key : InsertQuery
  data : InsertData
deriving DecidableEq, Repr

/-- Association-list lookup by `Nat` key, standing in for `std::map::find`
and `std::unordered_map::find`. -/
def alookup {β : Type} (k : Nat) : List (Nat × β) → Option β
  | [] => none
  | p :: ps => if p.1 = k then some p.2 else alookup k ps

/-- In-place update of the container stored under queue key `t`, standing in
for mutation through a `Queue::iterator`. -/
def assocUpdate (l : List (Nat × Container)) (t : Nat) (c : Container) :
    List (Nat × Container) :=
  l.map fun p => if p.1 = t then (t, c) else p

/-- `QueueShard` from the header: `queue` is the `std::map` from the
first-insert timestamp to the batch, `iterators` is the `QueueIteratorByKey`
`std::unordered_map` from the key's 128-bit hash to the position (timestamp)
of that key's batch in `queue`.  The mutex and condition variable are not
modelled: all shard operations below are the critical sections executed under
the shard lock. -/
structure QueueShard where
  queue : List (Nat × Container)
  iterators : List (Nat × Nat)
deriving DecidableEq, Repr

/-- A freshly constructed, empty shard. -/
def emptyShard : QueueShard := { queue := [], iterators := [] }

/-- The current byte total of the batch stored for hash `h` in the shard
(0 when no batch exists for that hash). -/
def batchSizeFor (shard : QueueShard) (h : Nat) : Nat :=
  match alookup h shard.iterators with
  | none => 0
  | some t =>
    match alookup t shard.queue with
    | none => 0
    | some c => c.data.size_in_bytes

/-- `PushResult::Status` from the header. -/
inductive Status where
  | OK
  | TOO_MUCH_DATA
deriving DecidableEq, Repr

/-- `PushResult` from the header: the status, the future (modelled as the
`create_time` handle of the entry whose promise it is, `none` when no future
is returned), and the raw bytes handed back on overflow. -/
structure PushResult where
  status : Status
  future : Option Nat
  insert_data_buffer : Option String
deriving DecidableEq, Repr

/-- Modelled from the spec: the under-lock section of `push` is in the
missing `.cpp`.  Per the spec: look up an existing batch by the key's hash;
if found, append the entry and add its length to the running total, but if
the updated total exceeds the maximum bytes per batch, detach the entry again
and return `TOO_MUCH_DATA` with the raw bytes, leaving the pre-existing batch
unmodified; if not found, create a new batch keyed by the current time and
insert it into both shard structures (a single payload alone exceeding the
budget is likewise returned as `TOO_MUCH_DATA`). -/
def pushShard (shard : QueueShard) (key : InsertQuery)
    (bytes query_id async_dedup_token : String)
    (user_memory_tracker now max_bytes : Nat) : QueueShard × PushResult :=
  let h := key.calculateHash
  let e := mkEntry bytes query_id async_dedup_token user_memory_tracker now
  let freshContainer : Container :=
    { key := key, data := { entries := [e], size_in_bytes := bytes.length } }
  let createFresh : QueueShard × PushResult :=
    if bytes.length > max_bytes then
      (shard, { status := .TOO_MUCH_DATA, future := none,
                insert_data_buffer := some bytes })
    else
      ({ queue := shard.queue ++ [(now, freshContainer)],
         iterators := (h, now) :: shard.iterators },
       { status := .OK, future := some now, insert_data_buffer := none })
  match alookup h shard.iterators with
  | none => createFresh
  | some t =>
    match alookup t shard.queue with
    | none => createFresh
    | some c =>
      let newSize := c.data.size_in_bytes + bytes.length
      let grown : Container :=
        { key := c.key,
          data := { entries := c.data.entries ++ [e], size_in_bytes := newSize } }
      if newSize > max_bytes then
        (shard, { status := .TOO_MUCH_DATA, future := none,
                  insert_data_buffer := some bytes })
      else
        ({ shard with queue := assocUpdate shard.queue t grown },
         { status := .OK, future := some now, insert_data_buffer := none })

/-- A queue key `t` (the batch's first-insert timestamp) is overdue at `now`
when the batch's age reaches the busy-timeout. -/
def isOverdue (timeout now t : Nat) : Bool :=
  decide (t + timeout ≤ now)

/-- Modelled from the spec: the extraction step of `processBatchDeadlines`
is in the missing `.cpp`.  Under the shard lock, every batch whose age
exceeds the busy-timeout is removed from both shard structures (the ordered
queue and the hash-indexed `iterators`) and handed to the flush executor;
the pair returned is the updated shard and the extracted containers. -/
def processBatchDeadlines (shard : QueueShard) (now timeout : Nat) :
    QueueShard × List Container :=
  ({ queue := shard.queue.filter (fun p => !(isOverdue timeout now p.1)),
     iterators := shard.iterators.filter (fun p => !(isOverdue timeout now p.2)) },
   (shard.queue.filter (fun p => isOverdue timeout now p.1)).map (fun p => p.2))

/-- Modelled from the spec: the per-shard extraction step of `flushAll` is in
the missing `.cpp`.  Under the shard lock, all batches are removed from both
shard structures and submitted to the flush executor. -/
def extractAll (shard : QueueShard) : QueueShard × List Container :=
  (emptyShard, shard.queue.map (fun p => p.2))

/-- Modelled from the spec: `finishWithException` is in the missing `.cpp`.
Every entry of the batch is finished with the one same captured failure. -/
def finishWithException (entries : List Entry) (exception : Err) : List Entry :=
  entries.map (fun e => e.finish (some exception))

/-- Modelled from the spec: `processData` is in the missing `.cpp`.  The
flush executor runs the storage write for the extracted batch (the write's
outcome is the external collaborator, passed in as `outcome`: `none` =
success, `some err` = the captured failure); on success every entry is
finished with no error, on failure every entry is finished with the same
captured failure via `finishWithException`.  The resolved entries of the
batch are returned. -/
def processData (c : Container) (outcome : Option Err) : List Entry :=
  match outcome with
  | none => c.data.entries.map (fun e => e.finish none)
  | some exception => finishWithException c.data.entries exception

/-- `AsynchronousInsertQueue` from the header: the shard array, the
configured pool size and the flush-on-shutdown flag.  `resolved` is model
bookkeeping for the promises already resolved by the flush executor or by
shutdown (in C++ these live in the callers' futures). -/
structure AsynchronousInsertQueue where
  pool_size : Nat
  flush_on_shutdown : Bool
  queue_shards : List QueueShard
  resolved : List Entry
deriving Repr

/-- The constructor: `pool_size` empty shards, nothing resolved yet. -/
def AsynchronousInsertQueue.init (pool_size : Nat) (flush_on_shutdown : Bool) :
    AsynchronousInsertQueue :=
  { pool_size := pool_size
    flush_on_shutdown := flush_on_shutdown
    queue_shards := List.replicate pool_size emptyShard
    resolved := [] }

/-- `getPoolSize` from the header. -/
def AsynchronousInsertQueue.getPoolSize (q : AsynchronousInsertQueue) : Nat :=
  q.pool_size

/-- Well-formedness tied to the constructor: the shard array has exactly
`pool_size` elements. -/
def AsynchronousInsertQueue.wf (q : AsynchronousInsertQueue) : Prop :=
  q.queue_shards.length = q.pool_size

/-- All entries still pending in any shard's batches. -/
def allPendingEntries (q : AsynchronousInsertQueue) : List Entry :=
  q.queue_shards.flatMap (fun s => s.queue.flatMap (fun p => p.2.data.entries))

/-- Modelled from the spec: `flushAll` is in the missing `.cpp`.  Under the
forced-flush mutex, every shard's batches are extracted under that shard's
lock and submitted to the flush executor, and the call blocks until every
extracted batch has completed; in the sequential model the returned state is
the state at the moment `flushAll` returns: all shards emptied and every
formerly pending entry resolved with its batch's write outcome (`outcomeOf`
is the storage write path, the external collaborator). -/
def AsynchronousInsertQueue.flushAll (q : AsynchronousInsertQueue)
    (outcomeOf : Container → Option Err) : AsynchronousInsertQueue :=
  { q with
    queue_shards := q.queue_shards.map (fun _ => emptyShard)
    resolved := q.resolved ++
      q.queue_shards.flatMap (fun s =>
        s.queue.flatMap (fun p => processData p.2 (outcomeOf p.2))) }

/-- Modelled from the spec: the destructor `~AsynchronousInsertQueue` is in
the missing `.cpp`.  If `flush_on_shutdown` is set, a final forced flush
runs before teardown; otherwise every still-pending entry is finished with
the failure indicating the queue was shut down before its data could be
written. -/
def AsynchronousInsertQueue.shutdown (q : AsynchronousInsertQueue)
    (outcomeOf : Container → Option Err) : AsynchronousInsertQueue :=
  if q.flush_on_shutdown then
    q.flushAll outcomeOf
  else
    { q with
      queue_shards := q.queue_shards.map (fun _ => emptyShard)
      resolved := q.resolved ++
        q.queue_shards.flatMap (fun s =>
          s.queue.flatMap (fun p =>
            finishWithException p.2.data.entries .shutdownBeforeFlush)) }

/-- One erase step of `~InsertData`: the entry destroyed and the memory
tracker that was the thread's active tracker at that moment. -/
structure EraseEvent where
  active_tracker : Nat
  entry : Entry
deriving DecidableEq, Repr

/-- `~InsertData` from the header source: the destructor walks the entry
list; on each iteration it constructs a `MemoryTrackerSwitcher` on *that*
entry's `user_memory_tracker` (scoped to the iteration) and erases the entry
under it.  The model records, per erased entry, the tracker that was active
during its destruction. -/
def InsertData.destructorEvents : List Entry → List EraseEvent
  | [] => []
  | e :: rest =>
    { active_tracker := e.user_memory_tracker, entry := e }
      :: InsertData.destructorEvents rest

/-- `getQueueLocked` from the header source: `queue_shards[shard_num]` is
indexed with no bounds check; the model makes the out-of-bounds access
explicit as `none`.  On success it returns the shard's queue paired with the
index of the shard whose mutex the returned `unique_lock` holds. -/
def AsynchronousInsertQueue.getQueueLocked (q : AsynchronousInsertQueue)
    (shard_num : Nat) : Option (List (Nat × Container) × Nat) :=
  match q.queue_shards.get? shard_num with
  | some shard => some (shard.queue, shard_num)
  | none => none

/-- The size invariant lifted to a whole shard: every stored batch
satisfies it. -/
def shardSizeInvariant (s : QueueShard) : Prop :=
  ∀ p ∈ s.queue, sizeInvariant p.2.data

/-- Keys differing only in the user id, positioned `2^128` apart so that the
128-bit hash of `InsertQuery.calculateHash` coincides on them. -/
def collisionKey1 : InsertQuery :=
  { query_str := "q", settings := [], user_id := some 0, current_roles := [] }

/-- See `collisionKey1`. -/
def collisionKey2 : InsertQuery :=
  { query_str := "q", settings := [], user_id := some (2 ^ 128),
    current_roles := [] }

/-- A one-pending-entry queue used to instantiate queue-level statements. -/
def oneEntryQueue : AsynchronousInsertQueue :=
  { pool_size := 1
    flush_on_shutdown := false
    queue_shards :=
      [(pushShard emptyShard collisionKey1 "a" "id" "" 0 0 100).1]
    resolved := [] }

/-- Grouping keys form an infinite type (the user id alone ranges over all
naturals), which is what forces collisions of any 128-bit key hash. -/
instance : Infinite InsertQuery :=
  Infinite.of_injective
    (fun n => { query_str := "", settings := [], user_id := some n,
                current_roles := [] })
    (fun a b h => by simpa [InsertQuery.mk.injEq] using h)

/-! ## Helper lemmas -/

theorem finish_of_finished (e : Entry) (x : Option Err) (h : e.finished = true) :
    e.finish x = e := by
  simp [Entry.finish, h]

theorem finish_finished (e : Entry) (x : Option Err) :
    (e.finish x).finished = true := by
  unfold Entry.finish
  split
  · assumption
  · rfl

theorem finish_bytes (e : Entry) (x : Option Err) :
    (e.finish x).bytes = e.bytes := by
  unfold Entry.finish
  split <;> rfl

theorem finish_query_id (e : Entry) (x : Option Err) :
    (e.finish x).query_id = e.query_id := by
  unfold Entry.finish
  split <;> rfl

theorem finish_resolution_of_not_finished (e : Entry) (x : Option Err)
    (h : e.finished = false) : (e.finish x).resolution = some x := by
  simp [Entry.finish, h]

theorem foldl_finish_of_finished (e : Entry) (l : List (Option Err))
    (h : e.finished = true) : l.foldl Entry.finish e = e := by
  induction l with
  | nil => rfl
  | cons y ys ih =>
    simp only [List.foldl_cons, finish_of_finished e y h]
    exact ih

theorem processData_eq_map_finish (c : Container) (outcome : Option Err) :
    processData c outcome = c.data.entries.map (fun e => e.finish outcome) := by
  cases outcome <;> rfl

theorem alookup_mem {β : Type} {k : Nat} {v : β} :
    ∀ {l : List (Nat × β)}, alookup k l = some v → (k, v) ∈ l := by
  intro l
  induction l with
  | nil => intro h; simp [alookup] at h
  | cons p ps ih =>
    obtain ⟨a, b⟩ := p
    intro h
    by_cases hp : a = k
    · subst hp
      simp only [alookup, if_pos rfl] at h
      obtain rfl := Option.some.inj h
      exact List.mem_cons_self _ _
    · simp only [alookup, if_neg (by simpa using hp)] at h
      exact List.mem_cons_of_mem _ (ih h)

theorem alookup_eq_none_of_not_mem {β : Type} {k : Nat} :
    ∀ {l : List (Nat × β)}, k ∉ l.map Prod.fst → alookup k l = none := by
  intro l
  induction l with
  | nil => intro _; rfl
  | cons p ps ih =>
    intro h
    simp only [List.map_cons, List.mem_cons] at h
    push_neg at h
    rw [alookup, if_neg (fun hp => h.1 hp.symm)]
    exact ih h.2

theorem alookup_filter_none {β : Type} (pred : Nat × β → Bool) {k : Nat} {t : β} :
    ∀ {l : List (Nat × β)}, (l.map Prod.fst).Nodup →
      alookup k l = some t → pred (k, t) = false →
      alookup k (l.filter pred) = none := by
  intro l
  induction l with
  | nil => intro _ h _; simp [alookup] at h
  | cons p ps ih =>
    obtain ⟨a, b⟩ := p
    intro hnd hl hp
    simp only [List.map_cons, List.nodup_cons] at hnd
    by_cases hpk : a = k
    · subst hpk
      simp only [alookup, if_pos rfl] at hl
      obtain rfl := Option.some.inj hl
      rw [List.filter_cons_of_neg (by simp [hp])]
      apply alookup_eq_none_of_not_mem
      intro hmem
      apply hnd.1
      obtain ⟨x, hx, hfx⟩ := List.mem_map.mp hmem
      exact List.mem_map.mpr ⟨x, List.mem_of_mem_filter hx, hfx⟩
    · simp only [alookup, if_neg (by simpa using hpk)] at hl
      by_cases hpp : pred (a, b) = true
      · rw [List.filter_cons_of_pos hpp, alookup, if_neg (by simpa using hpk)]
        exact ih hnd.2 hl hp
      · rw [List.filter_cons_of_neg (by simpa using hpp)]
        exact ih hnd.2 hl hp

theorem alookup_append_singleton {β : Type} {k : Nat} (v : β) :
    ∀ {l : List (Nat × β)}, alookup k l = none →
      alookup k (l ++ [(k, v)]) = some v := by
  intro l
  induction l with
  | nil => intro _; simp [alookup]
  | cons p ps ih =>
    intro h
    rw [alookup] at h
    by_cases hp : p.1 = k
    · rw [if_pos hp] at h; exact absurd h (by simp)
    · rw [if_neg hp] at h
      rw [List.cons_append, alookup, if_neg hp]
      exact ih h

theorem pending_of_emptied_shards (l : List QueueShard) :
    (l.map (fun _ => emptyShard)).flatMap
      (fun s => s.queue.flatMap (fun p => p.2.data.entries)) = [] := by
  induction l with
  | nil => rfl
  | cons s ss ih => simp [emptyShard, ih]

/-! ## Claim theorems -/

/-- C1: a freshly pushed entry's promise resolves exactly once.  After the
first `finish` with outcome `x`, the promise is resolved with `x`, and any
number of further `finish` calls — with any outcomes — leave the resolution
unchanged, because `finish` is guarded by the `finished` idempotency flag:
never zero resolutions once finished, never two different ones. -/
theorem entry_future_resolves_exactly_once (e : Entry) (h : e.finished = false)
    (x : Option Err) (rest : List (Option Err)) :
    (rest.foldl Entry.finish (e.finish x)).resolution = some x ∧
    (rest.foldl Entry.finish (e.finish x)).finished = true := by
  have h1 : (e.finish x).finished = true := finish_finished e x
  rw [foldl_finish_of_finished (e.finish x) rest h1]
  exact ⟨finish_resolution_of_not_finished e x h, h1⟩

/-- Witness for C1 at a concrete entry: first `finish` succeeds the promise,
a later `finish` with a failure does not change it. -/
theorem entry_future_resolves_exactly_once_witness :
    (mkEntry "a" "id" "" 0 0).finished = false ∧
    (([some Err.shutdownBeforeFlush].foldl Entry.finish
        ((mkEntry "a" "id" "" 0 0).finish none)).resolution = some none ∧
     ([some Err.shutdownBeforeFlush].foldl Entry.finish
        ((mkEntry "a" "id" "" 0 0).finish none)).finished = true) :=
  ⟨rfl, entry_future_resolves_exactly_once (mkEntry "a" "id" "" 0 0) rfl none
    [some Err.shutdownBeforeFlush]⟩

/-- C3: the flush executor finishes every entry of one batch with the same
outcome — on success (`outcome = none`) every entry is finished without
error, on failure every entry carries the one same captured failure — so all
futures of the batch resolve with an identical result. -/
theorem processData_uniform_outcome (c : Container) (outcome : Option Err)
    (h : ∀ e ∈ c.data.entries, e.finished = false) :
    ∀ e2 ∈ processData c outcome,
      e2.finished = true ∧ e2.resolution = some outcome := by
  intro e2 he2
  rw [processData_eq_map_finish] at he2
  obtain ⟨a, ha, rfl⟩ := List.mem_map.mp he2
  exact ⟨finish_finished a outcome,
    finish_resolution_of_not_finished a outcome (h a ha)⟩

/-- Witness for C3: a two-entry batch processed with a captured write
failure resolves both entries with that same failure. -/
theorem processData_uniform_outcome_witness :
    (∀ e ∈ (Container.mk collisionKey1
        (InsertData.mk [mkEntry "a" "id1" "" 0 0, mkEntry "b" "id2" "" 1 0] 2)).data.entries,
        e.finished = false) ∧
    (∀ e2 ∈ processData (Container.mk collisionKey1
        (InsertData.mk [mkEntry "a" "id1" "" 0 0, mkEntry "b" "id2" "" 1 0] 2))
        (some (Err.writeFailure "w")),
        e2.finished = true ∧ e2.resolution = some (some (Err.writeFailure "w"))) :=
  ⟨by decide,
   processData_uniform_outcome _ (some (Err.writeFailure "w")) (by decide)⟩

/-- C9: `~InsertData` erases each entry while that entry's own
`user_memory_tracker` is the active tracker — the active tracker follows the
entry list, switched per iteration, not fixed once for the whole batch — and
every entry of the batch is erased. -/
theorem insertdata_destructor_switches_tracker_per_entry (d : InsertData) :
    (InsertData.destructorEvents d.entries).map (fun ev => ev.active_tracker) =
      d.entries.map (fun e => e.user_memory_tracker) ∧
    (InsertData.destructorEvents d.entries).map (fun ev => ev.entry) =
      d.entries := by
  generalize d.entries = l
  induction l with
  | nil => exact ⟨rfl, rfl⟩
  | cons e rest ih =>
    simp only [InsertData.destructorEvents, List.map_cons]
    exact ⟨by rw [ih.1], by rw [ih.2]⟩

/-- C4: whenever accepting the entry would exceed the batch's byte budget —
including a lone payload larger than `max_bytes` when no batch exists for
the key, where `batchSizeFor` is `0` — `push` returns `TOO_MUCH_DATA`
carrying no future, hands the raw bytes back unchanged, and leaves the shard
(in particular any pre-existing batch for that key: its entry list and its
byte total) exactly as it was. -/
theorem push_overflow_returns_too_much_data (shard : QueueShard)
    (key : InsertQuery) (bytes query_id tok : String) (tr now max_bytes : Nat)
    (h : max_bytes < batchSizeFor shard key.calculateHash + bytes.length) :
    pushShard shard key bytes query_id tok tr now max_bytes =
      (shard, { status := .TOO_MUCH_DATA, future := none,
                insert_data_buffer := some bytes }) := by
  simp only [pushShard]
  split
  · rename_i hIt
    have hb : max_bytes < bytes.length := by simpa [batchSizeFor, hIt] using h
    rw [if_pos (show bytes.length > max_bytes by omega)]
  · rename_i t hIt
    split
    · rename_i hQ
      have hb : max_bytes < bytes.length := by
        simpa [batchSizeFor, hIt, hQ] using h
      rw [if_pos (show bytes.length > max_bytes by omega)]
    · rename_i c hQ
      have hb : max_bytes < c.data.size_in_bytes + bytes.length := by
        simpa [batchSizeFor, hIt, hQ] using h
      rw [if_pos (show c.data.size_in_bytes + bytes.length > max_bytes by omega)]

/-- Witness for C4: a lone 3-byte payload against a 2-byte budget on an
empty shard is bounced back unchanged with no future. -/
theorem push_overflow_returns_too_much_data_witness :
    2 < batchSizeFor emptyShard collisionKey1.calculateHash + "abc".length ∧
    pushShard emptyShard collisionKey1 "abc" "id" "" 0 0 2 =
      (emptyShard, { status := .TOO_MUCH_DATA, future := none,
                     insert_data_buffer := some "abc" }) :=
  ⟨by decide,
   push_overflow_returns_too_much_data emptyShard collisionKey1 "abc" "id" "" 0 0 2
     (by decide)⟩

/-- C8: `size_in_bytes` equals the sum of the entries' byte lengths at every
point of a batch's life: `push` preserves the invariant across batch
creation (fresh batch of one entry), entry append (total grows by the new
entry's length), and overflow detach (the shard, hence every batch in it, is
returned unchanged). -/
theorem push_preserves_size_invariant (shard : QueueShard) (key : InsertQuery)
    (bytes query_id tok : String) (tr now max_bytes : Nat)
    (h : shardSizeInvariant shard) :
    shardSizeInvariant (pushShard shard key bytes query_id tok tr now max_bytes).1 := by
  unfold shardSizeInvariant at h ⊢
  simp only [pushShard]
  split
  · rename_i hIt
    split
    · exact h
    · intro p hp
      rcases List.mem_append.mp hp with h1 | h2
      · exact h p h1
      · simp only [List.mem_singleton] at h2
        subst h2
        simp [sizeInvariant, mkEntry]
  · rename_i t hIt
    split
    · rename_i hQ
      split
      · exact h
      · intro p hp
        rcases List.mem_append.mp hp with h1 | h2
        · exact h p h1
        · simp only [List.mem_singleton] at h2
          subst h2
          simp [sizeInvariant, mkEntry]
    · rename_i c hQ
      split
      · exact h
      · intro p hp
        simp only [assocUpdate, List.mem_map] at hp
        obtain ⟨q, hq, hpq⟩ := hp
        by_cases hqt : q.1 = t
        · rw [if_pos hqt] at hpq
          subst hpq
          have hc : sizeInvariant c.data := h (t, c) (alookup_mem hQ)
          unfold sizeInvariant at hc ⊢
          simp [mkEntry, hc]
        · rw [if_neg hqt] at hpq
          subst hpq
          exact h q hq

/-- Witness for C8: pushing onto a shard already holding a well-sized
one-entry batch keeps the invariant. -/
theorem push_preserves_size_invariant_witness :
    shardSizeInvariant (pushShard emptyShard collisionKey1 "a" "id" "" 0 0 100).1 ∧
    shardSizeInvariant (pushShard (pushShard emptyShard collisionKey1 "a" "id" "" 0 0 100).1
      collisionKey1 "bc" "id2" "" 0 1 100).1 := by
  have base : shardSizeInvariant (pushShard emptyShard collisionKey1 "a" "id" "" 0 0 100).1 := by
    intro p hp
    fin_cases hp
    rfl
  exact ⟨base,
    push_preserves_size_invariant (pushShard emptyShard collisionKey1 "a" "id" "" 0 0 100).1
      collisionKey1 "bc" "id2" "" 0 1 100 base⟩

/-- C5: once the deadline monitor has extracted an overdue batch from its
shard, a subsequent push for the same key no longer finds any entry for its
hash in the shard structures (`alookup` on `iterators` is `none`) and
therefore starts a fresh batch: the push succeeds with `OK`, the hash now
maps to the new timestamp, and the container stored there holds exactly the
one new entry — never the extracted batch. -/
theorem push_after_extraction_starts_fresh_batch (shard : QueueShard)
    (key : InsertQuery) (bytes query_id tok : String)
    (tr t now timeout now2 max_bytes : Nat)
    (hnd : (shard.iterators.map Prod.fst).Nodup)
    (hfound : alookup key.calculateHash shard.iterators = some t)
    (hover : t + timeout ≤ now)
    (hlen : bytes.length ≤ max_bytes)
    (hfresh : alookup now2 (processBatchDeadlines shard now timeout).1.queue = none) :
    alookup key.calculateHash (processBatchDeadlines shard now timeout).1.iterators = none ∧
    (pushShard (processBatchDeadlines shard now timeout).1 key bytes query_id tok
        tr now2 max_bytes).2.status = .OK ∧
    alookup key.calculateHash (pushShard (processBatchDeadlines shard now timeout).1
        key bytes query_id tok tr now2 max_bytes).1.iterators = some now2 ∧
    alookup now2 (pushShard (processBatchDeadlines shard now timeout).1
        key bytes query_id tok tr now2 max_bytes).1.queue =
      some { key := key,
             data := { entries := [mkEntry bytes query_id tok tr now2],
                       size_in_bytes := bytes.length } } := by
  have hgone : alookup key.calculateHash
      (processBatchDeadlines shard now timeout).1.iterators = none := by
    unfold processBatchDeadlines
    exact alookup_filter_none _ hnd hfound (by simp [isOverdue, hover])
  have hnotover : ¬ bytes.length > max_bytes := by omega
  refine ⟨hgone, ?_, ?_, ?_⟩
  · simp only [pushShard, hgone, if_neg hnotover]
  · simp only [pushShard, hgone, if_neg hnotover]
    simp [alookup]
  · simp only [pushShard, hgone, if_neg hnotover]
    exact alookup_append_singleton _ hfresh

/-- Witness for C5 on a one-batch shard: its batch (created at time 0) is
overdue at time 10 with timeout 10; a push of the same key at time 5 after
extraction finds nothing and starts a fresh one-entry batch. -/
theorem push_after_extraction_starts_fresh_batch_witness :
    (((pushShard emptyShard collisionKey1 "a" "id" "" 0 0 100).1.iterators.map
        Prod.fst).Nodup ∧
      alookup collisionKey1.calculateHash
        (pushShard emptyShard collisionKey1 "a" "id" "" 0 0 100).1.iterators = some 0 ∧
      0 + 10 ≤ 10 ∧ "bb".length ≤ 100 ∧
      alookup 5 (processBatchDeadlines
        (pushShard emptyShard collisionKey1 "a" "id" "" 0 0 100).1 10 10).1.queue = none) ∧
    (alookup collisionKey1.calculateHash (processBatchDeadlines
        (pushShard emptyShard collisionKey1 "a" "id" "" 0 0 100).1 10 10).1.iterators = none ∧
      (pushShard (processBatchDeadlines
          (pushShard emptyShard collisionKey1 "a" "id" "" 0 0 100).1 10 10).1
        collisionKey1 "bb" "id2" "" 3 5 100).2.status = .OK ∧
      alookup collisionKey1.calculateHash (pushShard (processBatchDeadlines
          (pushShard emptyShard collisionKey1 "a" "id" "" 0 0 100).1 10 10).1
        collisionKey1 "bb" "id2" "" 3 5 100).1.iterators = some 5 ∧
      alookup 5 (pushShard (processBatchDeadlines
          (pushShard emptyShard collisionKey1 "a" "id" "" 0 0 100).1 10 10).1
        collisionKey1 "bb" "id2" "" 3 5 100).1.queue =
      some { key := collisionKey1,
             data := { entries := [mkEntry "bb" "id2" "" 3 5],
                       size_in_bytes := "bb".length } }) :=
  ⟨⟨by decide, by decide, by decide, by decide, by decide⟩,
   push_after_extraction_starts_fresh_batch
     (pushShard emptyShard collisionKey1 "a" "id" "" 0 0 100).1
     collisionKey1 "bb" "id2" "" 3 0 10 10 5 100
     (by decide) (by decide) (by decide) (by decide) (by decide)⟩

/-- Any 128-bit hash of grouping keys — not only the modelled one — has two
structurally different keys with equal hashes: the key space is infinite and
the hash space is not.  This is why C2's "never share one batch" cannot hold
of a hash-indexed lookup. -/
theorem every_key_hash_has_collision (f : InsertQuery → Fin (2 ^ 128)) :
    ∃ q1 q2 : InsertQuery, q1 ≠ q2 ∧ f q1 = f q2 :=
  Finite.exists_ne_map_eq_of_infinite f

/-- Counterexample to C2 as stated: `collisionKey1` and `collisionKey2`
differ structurally (different user ids), yet their 128-bit hashes coincide,
so the second push appends its entry to the first key's batch — the shard
ends with a single container, keyed by `collisionKey1`, holding both
entries.  The lookup table is indexed by the hash alone, so equal hashes
mean one shared batch regardless of structural inequality. -/
theorem distinct_keys_share_batch_on_hash_collision :
    collisionKey1 ≠ collisionKey2 ∧
    collisionKey1.calculateHash = collisionKey2.calculateHash ∧
    ((pushShard (pushShard emptyShard collisionKey1 "a" "id1" "" 0 0 100).1
        collisionKey2 "b" "id2" "" 0 1 100).1).queue =
      [(0, { key := collisionKey1,
             data := { entries := [mkEntry "a" "id1" "" 0 0,
                                   mkEntry "b" "id2" "" 0 1],
                       size_in_bytes := 2 } })] := by
  refine ⟨by decide, by decide, by decide⟩

/-- C2 amended: two pushes whose keys have *different 128-bit hashes* are
placed in logically distinct batches — each hash slot maps to its own
timestamp and container, each holding exactly its own entry.  (Structural
key difference alone does not suffice: under a hash collision the entries
share a batch, see the counterexample; the spec documents this as an
accepted risk of hashing the key.) -/
theorem distinct_hash_lands_in_distinct_batches (k1 k2 : InsertQuery)
    (b1 b2 qid1 qid2 tok1 tok2 : String) (tr1 tr2 t1 t2 max_bytes : Nat)
    (hne : k1.calculateHash ≠ k2.calculateHash)
    (h1 : b1.length ≤ max_bytes) (h2 : b2.length ≤ max_bytes) (ht : t1 ≠ t2) :
    alookup k1.calculateHash (pushShard (pushShard emptyShard k1 b1 qid1 tok1
        tr1 t1 max_bytes).1 k2 b2 qid2 tok2 tr2 t2 max_bytes).1.iterators = some t1 ∧
    alookup k2.calculateHash (pushShard (pushShard emptyShard k1 b1 qid1 tok1
        tr1 t1 max_bytes).1 k2 b2 qid2 tok2 tr2 t2 max_bytes).1.iterators = some t2 ∧
    alookup t1 (pushShard (pushShard emptyShard k1 b1 qid1 tok1
        tr1 t1 max_bytes).1 k2 b2 qid2 tok2 tr2 t2 max_bytes).1.queue =
      some { key := k1, data := { entries := [mkEntry b1 qid1 tok1 tr1 t1],
                                  size_in_bytes := b1.length } } ∧
    alookup t2 (pushShard (pushShard emptyShard k1 b1 qid1 tok1
        tr1 t1 max_bytes).1 k2 b2 qid2 tok2 tr2 t2 max_bytes).1.queue =
      some { key := k2, data := { entries := [mkEntry b2 qid2 tok2 tr2 t2],
                                  size_in_bytes := b2.length } } := by
  have hn1 : ¬ b1.length > max_bytes := by omega
  have hn2 : ¬ b2.length > max_bytes := by omega
  have s1eq : (pushShard emptyShard k1 b1 qid1 tok1 tr1 t1 max_bytes).1 =
      QueueShard.mk
        [(t1, Container.mk k1 (InsertData.mk [mkEntry b1 qid1 tok1 tr1 t1] b1.length))]
        [(k1.calculateHash, t1)] := by
    simp [pushShard, emptyShard, alookup, if_neg hn1]
  rw [s1eq]
  have hlook : alookup k2.calculateHash [(k1.calculateHash, t1)] = none := by
    simp [alookup, hne]
  simp only [pushShard, hlook, if_neg hn2]
  refine ⟨?_, ?_, ?_, ?_⟩
  · simp [alookup, Ne.symm hne]
  · simp [alookup]
  · simp [alookup]
  · simp [alookup, ht]

/-- Witness for the amended C2: two keys differing only in user id (0 and 1)
have different hashes and land in two distinct one-entry batches. -/
theorem distinct_hash_lands_in_distinct_batches_witness :
    ((collisionKey1.calculateHash ≠
        (InsertQuery.mk "q" [] (some 1) []).calculateHash) ∧
      "a".length ≤ 100 ∧ "b".length ≤ 100 ∧ (0 : Nat) ≠ 1) ∧
    (alookup collisionKey1.calculateHash (pushShard (pushShard emptyShard
        collisionKey1 "a" "id1" "" 0 0 100).1 (InsertQuery.mk "q" [] (some 1) [])
        "b" "id2" "" 0 1 100).1.iterators = some 0 ∧
      alookup (InsertQuery.mk "q" [] (some 1) []).calculateHash
        (pushShard (pushShard emptyShard collisionKey1 "a" "id1" "" 0 0 100).1
        (InsertQuery.mk "q" [] (some 1) []) "b" "id2" "" 0 1 100).1.iterators = some 1 ∧
      alookup 0 (pushShard (pushShard emptyShard collisionKey1 "a" "id1" "" 0 0 100).1
        (InsertQuery.mk "q" [] (some 1) []) "b" "id2" "" 0 1 100).1.queue =
        some { key := collisionKey1,
               data := { entries := [mkEntry "a" "id1" "" 0 0],
                         size_in_bytes := "a".length } } ∧
      alookup 1 (pushShard (pushShard emptyShard collisionKey1 "a" "id1" "" 0 0 100).1
        (InsertQuery.mk "q" [] (some 1) []) "b" "id2" "" 0 1 100).1.queue =
        some { key := InsertQuery.mk "q" [] (some 1) [],
               data := { entries := [mkEntry "b" "id2" "" 0 1],
                         size_in_bytes := "b".length } }) :=
  ⟨⟨by decide, by decide, by decide, by decide⟩,
   distinct_hash_lands_in_distinct_batches collisionKey1
     (InsertQuery.mk "q" [] (some 1) []) "a" "b" "id1" "id2" "" "" 0 0 0 1 100
     (by decide) (by decide) (by decide) (by decide)⟩

/-- C6: after `flushAll` returns, every batch that existed in any shard at
the moment of the call has been completed: the shards are left empty, and
for every entry that was pending at call entry a resolved copy of it (same
payload, same query id, promise fulfilled) is among the resolved entries.
(Pushes arriving concurrently are outside the sequential model and are not
required to be included, matching the spec's non-guarantee.) -/
theorem flushAll_completes_every_preexisting_batch (q : AsynchronousInsertQueue)
    (outcomeOf : Container → Option Err) :
    allPendingEntries (q.flushAll outcomeOf) = [] ∧
    ∀ e ∈ allPendingEntries q,
      ∃ e2 ∈ (q.flushAll outcomeOf).resolved,
        e2.bytes = e.bytes ∧ e2.query_id = e.query_id ∧ e2.finished = true := by
  constructor
  · show (q.queue_shards.map (fun _ => emptyShard)).flatMap _ = []
    exact pending_of_emptied_shards q.queue_shards
  · intro e he
    unfold allPendingEntries at he
    obtain ⟨s, hs, he2⟩ := List.mem_flatMap.mp he
    obtain ⟨p, hp, he3⟩ := List.mem_flatMap.mp he2
    refine ⟨e.finish (outcomeOf p.2), ?_,
      finish_bytes _ _, finish_query_id _ _, finish_finished _ _⟩
    show e.finish (outcomeOf p.2) ∈ q.resolved ++ _
    apply List.mem_append_right
    refine List.mem_flatMap.mpr ⟨s, hs, List.mem_flatMap.mpr ⟨p, hp, ?_⟩⟩
    rw [processData_eq_map_finish]
    exact List.mem_map_of_mem _ he3

/-- Witness for C6: the pending entry of `oneEntryQueue` shows up resolved
after `flushAll` with a successful write. -/
theorem flushAll_completes_every_preexisting_batch_witness :
    mkEntry "a" "id" "" 0 0 ∈ allPendingEntries oneEntryQueue ∧
    ∃ e2 ∈ (oneEntryQueue.flushAll (fun _ => none)).resolved,
      e2.bytes = (mkEntry "a" "id" "" 0 0).bytes ∧
      e2.query_id = (mkEntry "a" "id" "" 0 0).query_id ∧ e2.finished = true :=
  ⟨by decide,
   (flushAll_completes_every_preexisting_batch oneEntryQueue (fun _ => none)).2
     (mkEntry "a" "id" "" 0 0) (by decide)⟩

/-- C7: on shutdown with `flush_on_shutdown` disabled, the shards are
drained and every entry that was still pending (promise not yet fulfilled)
gets a resolved copy carrying the shutdown-before-flush failure — no caller
is left blocked on a promise that never resolves. -/
theorem shutdown_without_flush_fails_pending_entries
    (q : AsynchronousInsertQueue) (outcomeOf : Container → Option Err)
    (hflag : q.flush_on_shutdown = false) :
    allPendingEntries (q.shutdown outcomeOf) = [] ∧
    ∀ e ∈ allPendingEntries q, e.finished = false →
      ∃ e2 ∈ (q.shutdown outcomeOf).resolved,
        e2.bytes = e.bytes ∧ e2.query_id = e.query_id ∧
        e2.resolution = some (some Err.shutdownBeforeFlush) := by
  unfold AsynchronousInsertQueue.shutdown
  rw [hflag]
  simp only [Bool.false_eq_true, if_false]
  constructor
  · show (q.queue_shards.map (fun _ => emptyShard)).flatMap _ = []
    exact pending_of_emptied_shards q.queue_shards
  · intro e he hfin
    unfold allPendingEntries at he
    obtain ⟨s, hs, he2⟩ := List.mem_flatMap.mp he
    obtain ⟨p, hp, he3⟩ := List.mem_flatMap.mp he2
    refine ⟨e.finish (some Err.shutdownBeforeFlush), ?_,
      finish_bytes _ _, finish_query_id _ _,
      finish_resolution_of_not_finished _ _ hfin⟩
    show e.finish (some Err.shutdownBeforeFlush) ∈ q.resolved ++ _
    apply List.mem_append_right
    refine List.mem_flatMap.mpr ⟨s, hs, List.mem_flatMap.mpr ⟨p, hp, ?_⟩⟩
    exact List.mem_map_of_mem _ he3

/-- Witness for C7: `oneEntryQueue` has the flag disabled and one pending
entry; shutting down resolves that entry with the shutdown failure. -/
theorem shutdown_without_flush_fails_pending_entries_witness :
    (oneEntryQueue.flush_on_shutdown = false ∧
      mkEntry "a" "id" "" 0 0 ∈ allPendingEntries oneEntryQueue ∧
      (mkEntry "a" "id" "" 0 0).finished = false) ∧
    ∃ e2 ∈ (oneEntryQueue.shutdown (fun _ => none)).resolved,
      e2.bytes = (mkEntry "a" "id" "" 0 0).bytes ∧
      e2.query_id = (mkEntry "a" "id" "" 0 0).query_id ∧
      e2.resolution = some (some Err.shutdownBeforeFlush) :=
  ⟨⟨rfl, by decide, rfl⟩,
   (shutdown_without_flush_fails_pending_entries oneEntryQueue (fun _ => none)
       rfl).2 (mkEntry "a" "id" "" 0 0) (by decide) rfl⟩

/-- C10: `getQueueLocked` indexes the shard array with no bounds check.
Under the precondition `shard_num < getPoolSize()` (with the constructor
invariant that the array has `pool_size` shards) it returns that shard's
queue paired with the lock on that shard's mutex; for
`shard_num ≥ getPoolSize()` the access is out of bounds — the model's error
branch (`none`) is taken exactly there, so it is unreachable under the
precondition. -/
theorem getQueueLocked_requires_bounds (q : AsynchronousInsertQueue)
    (shard_num : Nat) (hwf : q.wf) :
    (shard_num < q.getPoolSize →
      ∃ shard, q.queue_shards.get? shard_num = some shard ∧
        q.getQueueLocked shard_num = some (shard.queue, shard_num)) ∧
    (q.getPoolSize ≤ shard_num → q.getQueueLocked shard_num = none) := by
  unfold AsynchronousInsertQueue.wf at hwf
  unfold AsynchronousInsertQueue.getPoolSize
  constructor
  · intro hlt
    cases hget : q.queue_shards.get? shard_num with
    | none =>
      have := List.get?_eq_none.mp hget
      omega
    | some shard =>
      refine ⟨shard, rfl, ?_⟩
      unfold AsynchronousInsertQueue.getQueueLocked
      rw [hget]
  · intro hge
    have hnone : q.queue_shards.get? shard_num = none :=
      List.get?_eq_none.mpr (by omega)
    unfold AsynchronousInsertQueue.getQueueLocked
    rw [hnone]

/-- Witness for C10 on a two-shard queue: index 0 is in bounds and yields
shard 0's queue with its lock; the out-of-bounds direction is vacuous at
index 0. -/
theorem getQueueLocked_requires_bounds_witness :
    (AsynchronousInsertQueue.init 2 false).wf ∧
    ((0 < (AsynchronousInsertQueue.init 2 false).getPoolSize →
      ∃ shard, (AsynchronousInsertQueue.init 2 false).queue_shards.get? 0 =
          some shard ∧
        (AsynchronousInsertQueue.init 2 false).getQueueLocked 0 =
          some (shard.queue, 0)) ∧
    ((AsynchronousInsertQueue.init 2 false).getPoolSize ≤ 0 →
      (AsynchronousInsertQueue.init 2 false).getQueueLocked 0 = none)) :=
  ⟨rfl, getQueueLocked_requires_bounds (AsynchronousInsertQueue.init 2 false) 0 rfl⟩

end AsyncInsert
